import Mathlib

/-!
Verification development for the capacity-exhaustion forecasting engine
(src/feature2/feature2.py).  The numerical Python code is shallowly embedded:
pure float arithmetic becomes exact arithmetic over the rationals where the
code is algebraic, and over the reals where a square root is taken
(threshold solving, outlier standard deviation).  The Student-t survival
function used for the p-value is transcendental and is abstracted as an
explicit function parameter psf; everything else is translated directly
from the source.

Configuration constants (config.yaml is not part of the sources) are kept
as explicit parameters of each definition; the default values named by the
claims are supplied at the call sites of the witnesses.
-/

/- ===================== power sums for the normal equations =============== -/

def sum_x (x : List ℚ) : ℚ := x.sum

def sum_x2 (x : List ℚ) : ℚ := (x.map (fun t => t ^ 2)).sum

def sum_x3 (x : List ℚ) : ℚ := (x.map (fun t => t ^ 3)).sum

def sum_x4 (x : List ℚ) : ℚ := (x.map (fun t => t ^ 4)).sum

def sum_y (y : List ℚ) : ℚ := y.sum

def sum_xy (x y : List ℚ) : ℚ := ((x.zip y).map (fun p => p.1 * p.2)).sum

def sum_x2y (x y : List ℚ) : ℚ := ((x.zip y).map (fun p => p.1 ^ 2 * p.2)).sum

/-- np.polyfit(x, y, deg=1): ordinary least squares line, returned as
(slope, intercept), in closed form from the 2x2 normal equations.  When the
denominator vanishes (degenerate x) Lean division by zero yields 0; the
code paths verified below never rely on that corner. -/
def polyfit1 (x y : List ℚ) : ℚ × ℚ :=
  (((x.length : ℚ) * sum_xy x y - sum_x x * sum_y y) /
      ((x.length : ℚ) * sum_x2 x - (sum_x x) ^ 2),
   (sum_y y - ((x.length : ℚ) * sum_xy x y - sum_x x * sum_y y) /
      ((x.length : ℚ) * sum_x2 x - (sum_x x) ^ 2) * sum_x x) / (x.length : ℚ))

/-- Determinant of the normal matrix XtX for the design matrix
[x^2, x, 1] used by fit_model.  np.linalg.inv(X.T @ X) raises exactly when
this determinant is zero. -/
def detXtX (x : List ℚ) : ℚ :=
  sum_x4 x * (sum_x2 x * (x.length : ℚ) - (sum_x x) ^ 2)
    - sum_x3 x * (sum_x3 x * (x.length : ℚ) - sum_x x * sum_x2 x)
    + sum_x2 x * (sum_x3 x * sum_x x - (sum_x2 x) ^ 2)

/-- np.polyfit(x, y, deg=2): ordinary least squares parabola (a, b, c),
solved by Cramer on the 3x3 normal equations.  When detXtX = 0 Lean
division by zero yields junk coefficients; fit_model then forces
p_value = 1 and selects the linear model, matching the except path of the
source, so the junk values never reach an output that the claims observe. -/
def polyfit2 (x y : List ℚ) : ℚ × ℚ × ℚ :=
  ((sum_x2y x y * (sum_x2 x * (x.length : ℚ) - (sum_x x) ^ 2)
      - sum_x3 x * (sum_xy x y * (x.length : ℚ) - sum_x x * sum_y y)
      + sum_x2 x * (sum_xy x y * sum_x x - sum_x2 x * sum_y y)) / detXtX x,
   (sum_x4 x * (sum_xy x y * (x.length : ℚ) - sum_x x * sum_y y)
      - sum_x2y x y * (sum_x3 x * (x.length : ℚ) - sum_x x * sum_x2 x)
      + sum_x2 x * (sum_x3 x * sum_y y - sum_xy x y * sum_x2 x)) / detXtX x,
   (sum_x4 x * (sum_x2 x * sum_y y - sum_xy x y * sum_x x)
      - sum_x3 x * (sum_x3 x * sum_y y - sum_xy x y * sum_x2 x)
      + sum_x2y x y * (sum_x3 x * sum_x x - (sum_x2 x) ^ 2)) / detXtX x)

/-- Entry [0,0] of (XtX)⁻¹, via the adjugate. -/
def inv00 (x : List ℚ) : ℚ :=
  (sum_x2 x * (x.length : ℚ) - (sum_x x) ^ 2) / detXtX x

/-- Value of the quadratic model a·t² + b·t + c. -/
def quadPred (abc : ℚ × ℚ × ℚ) (t : ℚ) : ℚ :=
  abc.1 * t ^ 2 + abc.2.1 * t + abc.2.2

/-- Residual mean squared error of the quadratic fit with n − 3 degrees of
freedom, as computed by fit_model. -/
def mseOf (x y : List ℚ) : ℚ :=
  (((x.zip y).map (fun p => (p.2 - quadPred (polyfit2 x y) p.1) ^ 2)).sum) /
    ((x.length : ℚ) - 3)

/-- Square of the standard error of the quadratic coefficient:
se(a)² = mse · (XtX)⁻¹[0,0]. -/
def seSq (x y : List ℚ) : ℚ := mseOf x y * inv00 x

/-- Square of the t statistic |a / se(a)| for the quadratic coefficient. -/
def tStatSq (x y : List ℚ) : ℚ := (polyfit2 x y).1 ^ 2 / seSq x y

/-- The p-value computation of fit_model.  psf abstracts the Student-t
two-sided tail function: psf tsq df stands for 2 · t.sf(√tsq, df), the
only transcendental step of the source.  The source sets p_value = 1.0
when inverting XtX raises (detXtX = 0) and when se(a) is not
strictly positive (seSq ≤ 0, which covers the nan branch of the float
code). -/
def pValueOf (psf : ℚ → ℕ → ℚ) (x y : List ℚ) : ℚ :=
  if detXtX x = 0 then 1
  else if 0 < seSq x y then psf (tStatSq x y) (x.length - 3) else 1

/-- Mean of a rational list, np.mean. -/
def list_meanQ (l : List ℚ) : ℚ := l.sum / l.length

/-- R² of the model abc against the data: 1 − SS_res/SS_tot, and 0 when
SS_tot is not positive, as in fit_model. -/
def rSquaredOf (abc : ℚ × ℚ × ℚ) (x y : List ℚ) : ℚ :=
  let ss_res := ((x.zip y).map (fun p => (p.2 - quadPred abc p.1) ^ 2)).sum
  let ss_tot := (y.map (fun v => (v - list_meanQ y) ^ 2)).sum
  if 0 < ss_tot then 1 - ss_res / ss_tot else 0

/-- Result record of PolynomialForecaster.fit_model. -/
structure FitResult where
  coeffs : ℚ × ℚ × ℚ
  model_type : String
  r_squared : ℚ
  p_value : ℚ
  mse : ℚ
  deriving Repr, DecidableEq

/-- PolynomialForecaster.fit_model: fit both models, test the quadratic
coefficient, select QUADRATIC when p_value < pth and otherwise represent
the linear fit as (0, slope, intercept). -/
def fit_model (psf : ℚ → ℕ → ℚ) (pth : ℚ) (x y : List ℚ) : FitResult :=
  if pValueOf psf x y < pth then
    { coeffs := polyfit2 x y
      model_type := "QUADRATIC"
      r_squared := rSquaredOf (polyfit2 x y) x y
      p_value := pValueOf psf x y
      mse := mseOf x y }
  else
    { coeffs := (0, (polyfit1 x y).1, (polyfit1 x y).2)
      model_type := "LINEAR"
      r_squared := rSquaredOf (0, (polyfit1 x y).1, (polyfit1 x y).2) x y
      p_value := pValueOf psf x y
      mse := mseOf x y }

/- ===================== DedupAnalyzer.analyze_dedup_trend ================= -/

/-- DedupAnalyzer.analyze_dedup_trend.  The four thresholds come from
configuration (config.yaml, not among the sources); they are explicit
parameters here. -/
def analyze_dedup_trend (impTh degTh impAdj degAdj : ℚ) (dedup_ratios : List ℚ) :
    String × ℚ :=
  if dedup_ratios.length < 10 then ("UNKNOWN", 1)
  else
    let mid := dedup_ratios.length / 2
    let first_avg := list_meanQ (dedup_ratios.take mid)
    let second_avg := list_meanQ (dedup_ratios.drop mid)
    let diff := second_avg - first_avg
    if impTh < diff then ("IMPROVING", impAdj)
    else if diff < degTh then ("DEGRADING", degAdj)
    else ("STABLE", 1)

/- ===================== confidence classification ========================= -/

/-- The confidence classification of CapacityOrchestrator.analyze_repository:
HIGH/1.0 when r² ≥ rHigh and n ≥ 21, else MODERATE/0.8 when r² ≥ rMod and
n ≥ minDays, else LOW/0.5. -/
def classify_confidence (rHigh rMod : ℚ) (minDays : ℕ) (r_squared : ℚ) (n : ℕ) :
    String × ℚ :=
  if rHigh ≤ r_squared ∧ 21 ≤ n then ("HIGH", 1)
  else if rMod ≤ r_squared ∧ minDays ≤ n then ("MODERATE", 4 / 5)
  else ("LOW", 1 / 2)

/- ===================== priority classification =========================== -/

/-- The priority classification of CapacityOrchestrator.analyze_repository.
The Python guard is the expression (days_to_80 and days_to_80 < THRESHOLD),
so the value 0 is falsy exactly like None; the embedding keeps that
truthiness test as k ≠ 0. -/
def priority_of (urgentTh highTh mediumTh : ℤ) (days_to_80 : Option ℤ) : String :=
  match days_to_80 with
  | none => "LOW"
  | some k =>
    if k ≠ 0 ∧ k < urgentTh then "URGENT"
    else if k ≠ 0 ∧ k < highTh then "HIGH"
    else if k ≠ 0 ∧ k < mediumTh then "MEDIUM"
    else "LOW"

/- ===================== DataPreprocessor.interpolate_gaps ================= -/

/-- Index and value of the nearest observation strictly before position i
on the daily grid. -/
def prevObs (l : List (Option ℚ)) (i : ℕ) : Option (ℕ × ℚ) :=
  ((List.range i).reverse).findSome? (fun j =>
    match l.getD j none with
    | some v => some (j, v)
    | none => none)

/-- Index and value of the nearest observation strictly after position i
on the daily grid. -/
def nextObs (l : List (Option ℚ)) (i : ℕ) : Option (ℕ × ℚ) :=
  (List.range' (i + 1) (l.length - (i + 1))).findSome? (fun j =>
    match l.getD j none with
    | some v => some (j, v)
    | none => none)

def countNone (l : List (Option ℚ)) : ℕ := (l.filter (fun v => v.isNone)).length

/-- Value of grid position i after the interpolation pass: an observed day
is kept; a missing day is filled with the linear interpolation between the
bounding observations when its distance to the previous observation or to
the next observation is at most limit, following the documented semantics
of pandas interpolate(method=linear, limit, limit_direction=both): the
limit caps the number of consecutive NaNs filled from each side, so only
days farther than limit from both bounding observations remain missing. -/
def fillAt (l : List (Option ℚ)) (limit : ℕ) (i : ℕ) : Option ℚ :=
  match l.getD i none with
  | some v => some v
  | none =>
    match prevObs l i, nextObs l i with
    | some (p, vp), some (q, vq) =>
      if i - p ≤ limit ∨ q - i ≤ limit then
        some (vp + (vq - vp) * (((i : ℚ) - p) / ((q : ℚ) - p)))
      else none
    | _, _ => none

/-- DataPreprocessor.interpolate_gaps on the resampled daily grid: the
input list has one entry per calendar day (None for a missing day; the
resampling guarantees the first and last grid entries are observed).
Returns the filled grid and the interpolated-day count, computed as in the
source as gaps before minus gaps after. -/
def interpolate_gaps (l : List (Option ℚ)) (limit : ℕ) : List (Option ℚ) × ℕ :=
  ((List.range l.length).map (fillAt l limit),
   countNone l - countNone ((List.range l.length).map (fillAt l limit)))

/- ===================== threshold solver (over the reals) ================= -/

/-- The two roots produced by the quadratic formula inside
solve_for_threshold: quadRoot a b c T true is x1 = (−b + √disc)/(2a) and
quadRoot a b c T false is x2 = (−b − √disc)/(2a), with
disc = b² − 4·a·(c − T). -/
noncomputable def quadRoot (a b c T : ℝ) (plus : Bool) : ℝ :=
  if plus then (-b + Real.sqrt (b ^ 2 - 4 * a * (c - T))) / (2 * a)
  else (-b - Real.sqrt (b ^ 2 - 4 * a * (c - T))) / (2 * a)

/-- PolynomialForecaster.solve_for_threshold, translated over the real
numbers (the float code takes a square root).  Python int() truncation is
Int.floor here; it is only applied under the positivity guard of the
source, where truncation toward zero and floor agree.  The source computes
x = −c_adj/b before testing b < 0; the computation is pure, so the tests
are reordered around it without effect.  In the quadratic branch the
source filters [x1, x2] for roots strictly beyond current_day and takes
the minimum, spelled out here as the four cases of that filter. -/
noncomputable def solve_for_threshold (a b c T d : ℝ) : Option ℤ :=
  if |a| < 1 / 1000000 then
    if |b| < 1 / 1000000 then none
    else if b < 0 then none
    else if 0 < -(c - T) / b - d then some ⌊-(c - T) / b - d⌋ else none
  else if b ^ 2 - 4 * a * (c - T) < 0 then none
  else if d < quadRoot a b c T true then
    if d < quadRoot a b c T false then
      (if 0 < min (quadRoot a b c T true) (quadRoot a b c T false) - d then
        some ⌊min (quadRoot a b c T true) (quadRoot a b c T false) - d⌋
      else none)
    else
      (if 0 < quadRoot a b c T true - d then some ⌊quadRoot a b c T true - d⌋
      else none)
  else if d < quadRoot a b c T false then
    (if 0 < quadRoot a b c T false - d then some ⌊quadRoot a b c T false - d⌋
    else none)
  else none

/- ===================== DataPreprocessor.remove_outliers ================== -/

/-- Mean of a real list, np.mean. -/
noncomputable def list_mean (l : List ℝ) : ℝ := l.sum / l.length

/-- Population variance, as in np.std squared. -/
noncomputable def list_var (l : List ℝ) : ℝ :=
  ((l.map (fun v => (v - list_mean l) ^ 2)).sum) / l.length

/-- Population standard deviation, np.std. -/
noncomputable def list_std (l : List ℝ) : ℝ := Real.sqrt (list_var l)

/-- DataPreprocessor.remove_outliers: drop points farther than
threshold · std from the mean; untouched when fewer than 3 points or zero
standard deviation or no outlier found. -/
noncomputable def remove_outliers (data : List ℝ) (threshold : ℝ) : List ℝ × ℕ :=
  if data.length < 3 then (data, 0)
  else if list_std data = 0 then (data, 0)
  else if 0 < (data.filter (fun v =>
      decide (threshold * list_std data < |v - list_mean data|))).length then
    (data.filter (fun v => ! decide (threshold * list_std data < |v - list_mean data|)),
     (data.filter (fun v =>
       decide (threshold * list_std data < |v - list_mean data|))).length)
  else (data, 0)

/-- The x re-alignment of CapacityOrchestrator.analyze_repository: a
second, separately computed boolean mask |y − mean| ≤ threshold · std
selects the x entries kept alongside the cleaned y. -/
noncomputable def realign_x (xs ys : List ℝ) (threshold : ℝ) : List ℝ :=
  ((xs.zip ys).filter (fun p =>
    decide (|p.2 - list_mean ys| ≤ threshold * list_std ys))).map Prod.fst

/- ===================== helper lemmas ===================================== -/

lemma length_ne_zero_of_lin_denom (x : List ℚ)
    (h : (x.length : ℚ) * sum_x2 x - (sum_x x) ^ 2 ≠ 0) : (x.length : ℚ) ≠ 0 := by
  intro h0
  apply h
  have hlen : x.length = 0 := by exact_mod_cast h0
  have hx : x = [] := List.length_eq_zero.mp hlen
  subst hx
  simp [sum_x, sum_x2]

lemma length_ne_zero_of_detXtX (x : List ℚ)
    (h : detXtX x ≠ 0) : (x.length : ℚ) ≠ 0 := by
  intro h0
  apply h
  have hlen : x.length = 0 := by exact_mod_cast h0
  have hx : x = [] := List.length_eq_zero.mp hlen
  subst hx
  simp [detXtX, sum_x, sum_x2, sum_x3, sum_x4]

/- ===================== theorems for the claims =========================== -/

/-- Claim C1: fit_model selects QUADRATIC exactly when the p-value of the
quadratic coefficient (two-sided t test on a/se(a) with n − 3 degrees of
freedom, abstracted by psf) is strictly below the threshold, returning the
fitted quadratic coefficients, and otherwise selects LINEAR represented as
(0, slope, intercept) of the degree-1 least-squares fit; the last two
conjuncts certify that polyfit1 and polyfit2 satisfy the least-squares
normal equations of their design matrices. -/
theorem fit_model_selection (psf : ℚ → ℕ → ℚ) (pth : ℚ) (x y : List ℚ) :
    ((fit_model psf pth x y).model_type = "QUADRATIC" ↔ pValueOf psf x y < pth) ∧
    ((fit_model psf pth x y).model_type = "LINEAR" ↔ ¬ pValueOf psf x y < pth) ∧
    ((fit_model psf pth x y).p_value = pValueOf psf x y) ∧
    (pValueOf psf x y < pth → (fit_model psf pth x y).coeffs = polyfit2 x y) ∧
    (¬ pValueOf psf x y < pth →
      (fit_model psf pth x y).coeffs = (0, (polyfit1 x y).1, (polyfit1 x y).2)) ∧
    (detXtX x ≠ 0 → 0 < seSq x y →
      pValueOf psf x y = psf ((polyfit2 x y).1 ^ 2 / seSq x y) (x.length - 3)) ∧
    ((x.length : ℚ) * sum_x2 x - (sum_x x) ^ 2 ≠ 0 →
      (polyfit1 x y).1 * sum_x2 x + (polyfit1 x y).2 * sum_x x = sum_xy x y ∧
      (polyfit1 x y).1 * sum_x x + (polyfit1 x y).2 * (x.length : ℚ) = sum_y y) ∧
    (detXtX x ≠ 0 →
      (polyfit2 x y).1 * sum_x4 x + (polyfit2 x y).2.1 * sum_x3 x
          + (polyfit2 x y).2.2 * sum_x2 x = sum_x2y x y ∧
      (polyfit2 x y).1 * sum_x3 x + (polyfit2 x y).2.1 * sum_x2 x
          + (polyfit2 x y).2.2 * sum_x x = sum_xy x y ∧
      (polyfit2 x y).1 * sum_x2 x + (polyfit2 x y).2.1 * sum_x x
          + (polyfit2 x y).2.2 * (x.length : ℚ) = sum_y y) := by
  refine ⟨?_, ?_, ?_, ?_, ?_, ?_, ?_, ?_⟩
  · unfold fit_model
    split_ifs with h <;> simp [h]
  · unfold fit_model
    split_ifs with h <;> simp [h]
  · unfold fit_model
    split_ifs with h <;> simp
  · intro h
    unfold fit_model
    rw [if_pos h]
  · intro h
    unfold fit_model
    rw [if_neg h]
  · intro hdet hse
    unfold pValueOf
    rw [if_neg hdet, if_pos hse, tStatSq]
  · intro hdenom
    have hn : (x.length : ℚ) ≠ 0 := length_ne_zero_of_lin_denom x hdenom
    constructor
    · unfold polyfit1
      dsimp only
      field_simp
      ring
    · unfold polyfit1
      dsimp only
      field_simp
      ring
  · intro hdet
    refine ⟨?_, ?_, ?_⟩ <;>
    · unfold polyfit2
      dsimp only
      field_simp
      unfold detXtX
      ring

/-- Claim C8: when the normal matrix of the design [x², x, 1] is singular,
or the standard error of the quadratic coefficient is zero, fit_model sets
the p-value to exactly 1 and (for any threshold at most 1) selects the
LINEAR model; the embedding is total, so no error is propagated. -/
theorem fit_model_degenerate (psf : ℚ → ℕ → ℚ) (pth : ℚ) (x y : List ℚ)
    (hp : pth ≤ 1) (h : detXtX x = 0 ∨ seSq x y = 0) :
    (fit_model psf pth x y).p_value = 1 ∧
    (fit_model psf pth x y).model_type = "LINEAR" := by
  have hpv : pValueOf psf x y = 1 := by
    unfold pValueOf
    rcases h with h | h
    · rw [if_pos h]
    · split_ifs with h1 h2
      · rfl
      · rw [h] at h2
        exact absurd h2 (lt_irrefl 0)
      · rfl
  have hsel : ¬ pValueOf psf x y < pth := by
    rw [hpv]
    exact not_lt.mpr hp
  unfold fit_model
  rw [if_neg hsel]
  exact ⟨hpv, rfl⟩

/-- Claim C5 (code bug): a non-None days_to_80 equal to 0 sits strictly
below the urgent threshold (default 15), yet priority_of classifies it
LOW, because the Python guard (days_to_80 and days_to_80 < threshold)
treats the integer 0 as falsy exactly like None; the None case does
default to LOW as the claim states. -/
theorem priority_truthiness_bug :
    priority_of 15 30 60 (some 0) = "LOW" ∧
    priority_of 15 30 60 none = "LOW" ∧
    (0 : ℤ) < 15 ∧ (some 0 : Option ℤ) ≠ none := by decide

/-- Claim C7: the confidence classification is HIGH with multiplier 1
exactly when r² ≥ rHigh and n ≥ 21; otherwise MODERATE with multiplier 0.8
exactly when r² ≥ rMod and n ≥ minDays; otherwise LOW with multiplier 0.5;
and at the boundary, 21 samples with r² = rHigh classify HIGH while 20
samples with the same r² do not. -/
theorem classify_confidence_spec (rHigh rMod : ℚ) (minDays : ℕ) (r : ℚ) (n : ℕ) :
    (classify_confidence rHigh rMod minDays r n = ("HIGH", 1) ↔ rHigh ≤ r ∧ 21 ≤ n) ∧
    (¬ (rHigh ≤ r ∧ 21 ≤ n) →
      (classify_confidence rHigh rMod minDays r n = ("MODERATE", 4 / 5) ↔
        rMod ≤ r ∧ minDays ≤ n)) ∧
    (¬ (rHigh ≤ r ∧ 21 ≤ n) → ¬ (rMod ≤ r ∧ minDays ≤ n) →
      classify_confidence rHigh rMod minDays r n = ("LOW", 1 / 2)) ∧
    classify_confidence rHigh rMod minDays rHigh 21 = ("HIGH", 1) ∧
    (classify_confidence rHigh rMod minDays rHigh 20).1 ≠ "HIGH" := by
  unfold classify_confidence
  refine ⟨?_, ?_, ?_, ?_, ?_⟩
  · constructor
    · intro h
      by_contra hc
      rw [if_neg hc] at h
      split_ifs at h <;> simp_all
    · intro h
      rw [if_pos h]
  · intro hc
    rw [if_neg hc]
    constructor
    · intro h
      by_contra hc2
      rw [if_neg hc2] at h
      simp_all
    · intro h
      rw [if_pos h]
  · intro h1 h2
    rw [if_neg h1, if_neg h2]
  · rw [if_pos ⟨le_refl _, le_refl _⟩]
  · have h20 : ¬ (rHigh ≤ rHigh ∧ 21 ≤ 20) := by omega
    rw [if_neg h20]
    split_ifs <;> simp

/-- Claim C9: with fewer than 10 dedup observations the classifier returns
(UNKNOWN, 1); otherwise, comparing the positional first-half and
second-half means, a difference above the improving threshold yields
IMPROVING with adjustment below 1, a difference below the degrading
threshold yields DEGRADING with adjustment above 1, and otherwise
(STABLE, 1).  The threshold and adjustment constants live in the absent
configuration; the spec-stated facts impAdj < 1 < degAdj and
degTh ≤ impTh are hypotheses. -/
theorem analyze_dedup_trend_spec (impTh degTh impAdj degAdj : ℚ) (l : List ℚ)
    (h1 : impAdj < 1) (h2 : 1 < degAdj) (h3 : degTh ≤ impTh) :
    (l.length < 10 →
      analyze_dedup_trend impTh degTh impAdj degAdj l = ("UNKNOWN", 1)) ∧
    (10 ≤ l.length →
      (impTh < list_meanQ (l.drop (l.length / 2)) - list_meanQ (l.take (l.length / 2)) →
        analyze_dedup_trend impTh degTh impAdj degAdj l = ("IMPROVING", impAdj) ∧
        (analyze_dedup_trend impTh degTh impAdj degAdj l).2 < 1) ∧
      (list_meanQ (l.drop (l.length / 2)) - list_meanQ (l.take (l.length / 2)) < degTh →
        analyze_dedup_trend impTh degTh impAdj degAdj l = ("DEGRADING", degAdj) ∧
        1 < (analyze_dedup_trend impTh degTh impAdj degAdj l).2) ∧
      (degTh ≤ list_meanQ (l.drop (l.length / 2)) - list_meanQ (l.take (l.length / 2)) →
        list_meanQ (l.drop (l.length / 2)) - list_meanQ (l.take (l.length / 2)) ≤ impTh →
        analyze_dedup_trend impTh degTh impAdj degAdj l = ("STABLE", 1))) := by
  constructor
  · intro hlen
    unfold analyze_dedup_trend
    rw [if_pos hlen]
  · intro hlen
    have hnot : ¬ l.length < 10 := not_lt.mpr hlen
    refine ⟨?_, ?_, ?_⟩
    · intro hd
      unfold analyze_dedup_trend
      rw [if_neg hnot, if_pos hd]
      exact ⟨rfl, h1⟩
    · intro hd
      have himp : ¬ impTh < list_meanQ (l.drop (l.length / 2))
          - list_meanQ (l.take (l.length / 2)) := by linarith
      unfold analyze_dedup_trend
      rw [if_neg hnot, if_neg himp, if_pos hd]
      exact ⟨rfl, h2⟩
    · intro hd1 hd2
      have himp : ¬ impTh < list_meanQ (l.drop (l.length / 2))
          - list_meanQ (l.take (l.length / 2)) := not_lt.mpr hd2
      have hdeg : ¬ list_meanQ (l.drop (l.length / 2))
          - list_meanQ (l.take (l.length / 2)) < degTh := not_lt.mpr hd1
      unfold analyze_dedup_trend
      rw [if_neg hnot, if_neg himp, if_neg hdeg]

/- ===================== solver lemmas ===================================== -/

lemma abs_ge_eps_ne_zero {a : ℝ} (ha : 1 / 1000000 ≤ |a|) : a ≠ 0 := by
  intro h
  rw [h, abs_zero] at ha
  linarith

lemma root_iff (a b c T : ℝ) (ha : a ≠ 0) (hd : 0 ≤ b ^ 2 - 4 * a * (c - T))
    (x : ℝ) : a * x ^ 2 + b * x + c = T ↔
      x = quadRoot a b c T true ∨ x = quadRoot a b c T false := by
  have h1 : (a * x ^ 2 + b * x + c = T) ↔ a * (x * x) + b * x + (c - T) = 0 := by
    constructor <;> intro h <;> linear_combination h
  have e1 : quadRoot a b c T true
      = (-b + Real.sqrt (b ^ 2 - 4 * a * (c - T))) / (2 * a) := by
    simp [quadRoot]
  have e2 : quadRoot a b c T false
      = (-b - Real.sqrt (b ^ 2 - 4 * a * (c - T))) / (2 * a) := by
    simp [quadRoot]
  rw [h1, e1, e2]
  exact quadratic_eq_zero_iff ha
    (by rw [discrim]; exact (Real.mul_self_sqrt hd).symm) x

lemma solve_for_threshold_quad_cases (a b c T d : ℝ) (ha : 1 / 1000000 ≤ |a|) :
    (b ^ 2 - 4 * a * (c - T) < 0 → solve_for_threshold a b c T d = none) ∧
    (solve_for_threshold a b c T d = none ↔
      (b ^ 2 - 4 * a * (c - T) < 0 ∨ ∀ x : ℝ, a * x ^ 2 + b * x + c = T → x ≤ d)) ∧
    (∀ k : ℤ, solve_for_threshold a b c T d = some k ↔
      ∃ x : ℝ, a * x ^ 2 + b * x + c = T ∧ d < x ∧
        (∀ z : ℝ, a * z ^ 2 + b * z + c = T → d < z → x ≤ z) ∧ k = ⌊x - d⌋) := by
  have hanz : a ≠ 0 := abs_ge_eps_ne_zero ha
  have ha' : ¬ |a| < 1 / 1000000 := not_lt.mpr ha
  by_cases hd : b ^ 2 - 4 * a * (c - T) < 0
  · have hnone : solve_for_threshold a b c T d = none := by
      unfold solve_for_threshold
      rw [if_neg ha', if_pos hd]
    refine ⟨fun _ => hnone, ?_, ?_⟩
    · rw [hnone]
      exact ⟨fun _ => Or.inl hd, fun _ => rfl⟩
    · intro k
      rw [hnone]
      constructor
      · intro h
        exact absurd h (by simp)
      · rintro ⟨x, hroot, _, _, _⟩
        exfalso
        have hsq : b ^ 2 - 4 * a * (c - T) = (2 * a * x + b) ^ 2 := by
          linear_combination (-4 * a) * hroot
        nlinarith [sq_nonneg (2 * a * x + b)]
  · have hd' : 0 ≤ b ^ 2 - 4 * a * (c - T) := not_lt.mp hd
    have hiff : ∀ x : ℝ, a * x ^ 2 + b * x + c = T ↔
        x = quadRoot a b c T true ∨ x = quadRoot a b c T false :=
      root_iff a b c T hanz hd'
    have hr1 : a * (quadRoot a b c T true) ^ 2 + b * quadRoot a b c T true + c = T :=
      (hiff _).mpr (Or.inl rfl)
    have hr2 : a * (quadRoot a b c T false) ^ 2 + b * quadRoot a b c T false + c = T :=
      (hiff _).mpr (Or.inr rfl)
    by_cases h1 : d < quadRoot a b c T true <;> by_cases h2 : d < quadRoot a b c T false
    · -- both roots lie beyond d: the minimum is taken
      have hm : d < min (quadRoot a b c T true) (quadRoot a b c T false) := lt_min h1 h2
      have hval : solve_for_threshold a b c T d =
          some ⌊min (quadRoot a b c T true) (quadRoot a b c T false) - d⌋ := by
        unfold solve_for_threshold
        rw [if_neg ha', if_neg hd, if_pos h1, if_pos h2, if_pos (sub_pos.mpr hm)]
      refine ⟨fun h => absurd h hd, ?_, ?_⟩
      · rw [hval]
        constructor
        · intro h
          exact absurd h (by simp)
        · rintro (h | hall)
          · exact absurd h hd
          · exact absurd (hall _ hr1) (not_le.mpr h1)
      · intro k
        rw [hval]
        constructor
        · intro h
          have hk : k = ⌊min (quadRoot a b c T true) (quadRoot a b c T false) - d⌋ :=
            (Option.some.inj h).symm
          refine ⟨min (quadRoot a b c T true) (quadRoot a b c T false), ?_, hm, ?_, hk⟩
          · rcases min_choice (quadRoot a b c T true) (quadRoot a b c T false) with
              hmin | hmin
            · rw [hmin]; exact hr1
            · rw [hmin]; exact hr2
          · intro z hz _
            rcases (hiff z).mp hz with rfl | rfl
            · exact min_le_left _ _
            · exact min_le_right _ _
        · rintro ⟨x, hroot, _, hminim, hk⟩
          have hle1 : x ≤ quadRoot a b c T true := hminim _ hr1 h1
          have hle2 : x ≤ quadRoot a b c T false := hminim _ hr2 h2
          have hxmin : x = min (quadRoot a b c T true) (quadRoot a b c T false) := by
            refine le_antisymm (le_min hle1 hle2) ?_
            rcases (hiff x).mp hroot with rfl | rfl
            · exact min_le_left _ _
            · exact min_le_right _ _
          rw [hk, hxmin]
    · -- only the plus root lies beyond d
      have hval : solve_for_threshold a b c T d = some ⌊quadRoot a b c T true - d⌋ := by
        unfold solve_for_threshold
        rw [if_neg ha', if_neg hd, if_pos h1, if_neg h2, if_pos (sub_pos.mpr h1)]
      refine ⟨fun h => absurd h hd, ?_, ?_⟩
      · rw [hval]
        constructor
        · intro h
          exact absurd h (by simp)
        · rintro (h | hall)
          · exact absurd h hd
          · exact absurd (hall _ hr1) (not_le.mpr h1)
      · intro k
        rw [hval]
        constructor
        · intro h
          refine ⟨quadRoot a b c T true, hr1, h1, ?_, (Option.some.inj h).symm⟩
          intro z hz hdz
          rcases (hiff z).mp hz with rfl | rfl
          · exact le_refl _
          · exact absurd hdz h2
        · rintro ⟨x, hroot, hdx, _, hk⟩
          rcases (hiff x).mp hroot with rfl | rfl
          · rw [hk]
          · exact absurd hdx h2
    · -- only the minus root lies beyond d
      have hval : solve_for_threshold a b c T d = some ⌊quadRoot a b c T false - d⌋ := by
        unfold solve_for_threshold
        rw [if_neg ha', if_neg hd, if_neg h1, if_pos h2, if_pos (sub_pos.mpr h2)]
      refine ⟨fun h => absurd h hd, ?_, ?_⟩
      · rw [hval]
        constructor
        · intro h
          exact absurd h (by simp)
        · rintro (h | hall)
          · exact absurd h hd
          · exact absurd (hall _ hr2) (not_le.mpr h2)
      · intro k
        rw [hval]
        constructor
        · intro h
          refine ⟨quadRoot a b c T false, hr2, h2, ?_, (Option.some.inj h).symm⟩
          intro z hz hdz
          rcases (hiff z).mp hz with rfl | rfl
          · exact absurd hdz h1
          · exact le_refl _
        · rintro ⟨x, hroot, hdx, _, hk⟩
          rcases (hiff x).mp hroot with rfl | rfl
          · exact absurd hdx h1
          · rw [hk]
    · -- neither root lies beyond d
      have hval : solve_for_threshold a b c T d = none := by
        unfold solve_for_threshold
        rw [if_neg ha', if_neg hd, if_neg h1, if_neg h2]
      refine ⟨fun h => absurd h hd, ?_, ?_⟩
      · rw [hval]
        refine ⟨fun _ => Or.inr ?_, fun _ => rfl⟩
        intro x hx
        rcases (hiff x).mp hx with rfl | rfl
        · exact not_lt.mp h1
        · exact not_lt.mp h2
      · intro k
        rw [hval]
        constructor
        · intro h
          exact absurd h (by simp)
        · rintro ⟨x, hroot, hdx, _, _⟩
          rcases (hiff x).mp hroot with rfl | rfl
          · exact absurd hdx h1
          · exact absurd hdx h2

/-- Claim C2: in the quadratic branch (|a| ≥ 1e-6) the solver returns None
when the discriminant b² − 4a(c − T) is negative; it returns None exactly
when the discriminant is negative or no root of a·x² + b·x + c = T lies
strictly beyond the current day d; and it returns some k exactly when k is
the floor of (smallest root beyond d) − d, the earliest future crossing. -/
theorem solve_for_threshold_quadratic_spec (a b c T d : ℝ)
    (ha : 1 / 1000000 ≤ |a|) :
    (b ^ 2 - 4 * a * (c - T) < 0 → solve_for_threshold a b c T d = none) ∧
    (solve_for_threshold a b c T d = none ↔
      (b ^ 2 - 4 * a * (c - T) < 0 ∨ ∀ x : ℝ, a * x ^ 2 + b * x + c = T → x ≤ d)) ∧
    (∀ k : ℤ, solve_for_threshold a b c T d = some k ↔
      ∃ x : ℝ, a * x ^ 2 + b * x + c = T ∧ d < x ∧
        (∀ z : ℝ, a * z ^ 2 + b * z + c = T → d < z → x ≤ z) ∧ k = ⌊x - d⌋) :=
  solve_for_threshold_quad_cases a b c T d ha

theorem solve_for_threshold_quadratic_spec_witness :
    solve_for_threshold 1 0 (-4) 0 0 = some 2 := by
  have h := (solve_for_threshold_quadratic_spec 1 0 (-4) 0 0 (by norm_num)).2.2 2
  refine h.mpr ⟨2, by norm_num, by norm_num, ?_, by norm_num⟩
  intro z hz hz0
  have h4 : (z - 2) * (z + 2) = 0 := by nlinarith
  rcases mul_eq_zero.mp h4 with h0 | h0
  · linarith
  · linarith

/-- Claim C4: in the linear branch (|a| < 1e-6) the solver returns None
when |b| is also below epsilon (flat) and when b < 0 (declining); otherwise
it returns (T − c)/b − d, floored, when that quantity is positive and None
otherwise; in particular a flat or strictly declining linear model yields
None for every threshold and every current day. -/
theorem solve_for_threshold_linear_spec (a b c T d : ℝ) (ha : |a| < 1 / 1000000) :
    (|b| < 1 / 1000000 → solve_for_threshold a b c T d = none) ∧
    (b < 0 → solve_for_threshold a b c T d = none) ∧
    (1 / 1000000 ≤ |b| → 0 ≤ b →
      (0 < (T - c) / b - d →
        solve_for_threshold a b c T d = some ⌊(T - c) / b - d⌋) ∧
      ((T - c) / b - d ≤ 0 → solve_for_threshold a b c T d = none)) ∧
    ((|b| < 1 / 1000000 ∨ b < 0) →
      ∀ T2 d2 : ℝ, solve_for_threshold a b c T2 d2 = none) := by
  refine ⟨?_, ?_, ?_, ?_⟩
  · intro hb
    unfold solve_for_threshold
    rw [if_pos ha, if_pos hb]
  · intro hb
    unfold solve_for_threshold
    rw [if_pos ha]
    by_cases hb2 : |b| < 1 / 1000000
    · rw [if_pos hb2]
    · rw [if_neg hb2, if_pos hb]
  · intro hb hb0
    have hbn : ¬ b < 0 := not_lt.mpr hb0
    have hb' : ¬ |b| < 1 / 1000000 := not_lt.mpr hb
    have hax : -(c - T) / b - d = (T - c) / b - d := by rw [neg_sub]
    constructor
    · intro hpos
      unfold solve_for_threshold
      rw [if_pos ha, if_neg hb', if_neg hbn, hax, if_pos hpos]
    · intro hnp
      unfold solve_for_threshold
      rw [if_pos ha, if_neg hb', if_neg hbn, hax, if_neg (not_lt.mpr hnp)]
  · rintro (hb | hb) T2 d2
    · unfold solve_for_threshold
      rw [if_pos ha, if_pos hb]
    · unfold solve_for_threshold
      rw [if_pos ha]
      by_cases hb2 : |b| < 1 / 1000000
      · rw [if_pos hb2]
      · rw [if_neg hb2, if_pos hb]

theorem solve_for_threshold_linear_spec_witness :
    solve_for_threshold 0 1 0 5 0 = some 5 := by
  have h := ((solve_for_threshold_linear_spec 0 1 0 5 0 (by norm_num)).2.2.1
    (by norm_num) (by norm_num)).1 (by norm_num)
  rw [h]
  norm_num

/-- Claim C3 (amended): whenever the solver returns some k there is an
exact real crossing x of the model, strictly beyond the current day d,
with a·x² + b·x + c = T exactly and k = ⌊x − d⌋; the returned integer is
the floor of the exact crossing offset, so evaluating the model at
d + k reproduces T only up to the model variation over the truncated
fraction of a day, not to numerical tolerance. -/
theorem solve_round_trip_exact (a b c T d : ℝ) (k : ℤ)
    (ha : a = 0 ∨ 1 / 1000000 ≤ |a|)
    (hk : solve_for_threshold a b c T d = some k) :
    ∃ x : ℝ, a * x ^ 2 + b * x + c = T ∧ d < x ∧ k = ⌊x - d⌋ := by
  rcases ha with ha | ha
  · subst ha
    unfold solve_for_threshold at hk
    rw [if_pos (by norm_num)] at hk
    by_cases hb : |b| < 1 / 1000000
    · rw [if_pos hb] at hk
      simp at hk
    · rw [if_neg hb] at hk
      by_cases hbn : b < 0
      · rw [if_pos hbn] at hk
        simp at hk
      · rw [if_neg hbn] at hk
        by_cases hp : 0 < -(c - T) / b - d
        · rw [if_pos hp] at hk
          have hbne : b ≠ 0 := by
            intro h0
            apply hb
            rw [h0]
            norm_num
          refine ⟨-(c - T) / b, ?_, by linarith, (Option.some.inj hk).symm⟩
          field_simp
        · rw [if_neg hp] at hk
          simp at hk
  · obtain ⟨x, hroot, hdx, _, hk'⟩ :=
      ((solve_for_threshold_quad_cases a b c T d ha).2.2 k).mp hk
    exact ⟨x, hroot, hdx, hk'⟩

theorem solve_round_trip_exact_witness :
    ∃ x : ℝ, (0 : ℝ) * x ^ 2 + 2 * x + 0 = 7 ∧ (0 : ℝ) < x ∧ (3 : ℤ) = ⌊x - 0⌋ := by
  apply solve_round_trip_exact 0 2 0 7 0 3 (Or.inl rfl)
  unfold solve_for_threshold
  rw [if_pos (by norm_num), if_neg (by norm_num), if_neg (by norm_num),
    if_pos (by norm_num)]
  norm_num

/-- Claim C3 (counterexample to the claim as stated): with the linear
model b = 10, c = 0, target T = 105 and current day 0 the solver returns
10 days, but the model evaluated at day 0 + 10 is 100, off from the target
by 5, far beyond numerical tolerance: the returned day count is truncated
from the exact crossing 10.5. -/
theorem solve_round_trip_counterexample :
    solve_for_threshold 0 10 0 105 0 = some 10 ∧
    |(0 : ℝ) * 10 ^ 2 + 10 * 10 + 0 - 105| = 5 ∧ (1 / 1000000 : ℝ) < 5 := by
  refine ⟨?_, by norm_num, by norm_num⟩
  unfold solve_for_threshold
  rw [if_pos (by norm_num), if_neg (by norm_num), if_neg (by norm_num),
    if_pos (by norm_num)]
  norm_num

/- ===================== interpolation lemmas ============================== -/

lemma interpolate_getD (l : List (Option ℚ)) (limit i : ℕ) (hil : i < l.length) :
    (interpolate_gaps l limit).1.getD i none = fillAt l limit i := by
  unfold interpolate_gaps
  simp [List.getD_eq_getElem?_getD, List.getElem?_map, List.getElem?_range hil]

lemma getD_some_lt_length (l : List (Option ℚ)) (j : ℕ) (w : ℚ)
    (h : l.getD j none = some w) : j < l.length := by
  by_contra hc
  rw [List.getD_eq_default _ _ (not_lt.mp hc)] at h
  cases h

/-- Claim C6 (amended): the interpolation pass keeps the grid length and
every observed day; a missing day whose distance to the previous or to the
next bounding observation is at most limit is filled with the linear
interpolation between those observations, while a day farther than limit
from both stays missing (so a gap is dropped only in its interior beyond
limit days from each end, and gaps of run-length up to 2·limit are filled
completely); the returned count is gaps before minus gaps after. -/
theorem interpolate_gaps_spec (l : List (Option ℚ)) (limit i p q : ℕ) (vp vq : ℚ)
    (hil : i < l.length) (hmiss : l.getD i none = none)
    (hp : prevObs l i = some (p, vp)) (hq : nextObs l i = some (q, vq)) :
    (interpolate_gaps l limit).1.length = l.length ∧
    (∀ j : ℕ, ∀ w : ℚ, l.getD j none = some w →
      (interpolate_gaps l limit).1.getD j none = some w) ∧
    ((i - p ≤ limit ∨ q - i ≤ limit) →
      (interpolate_gaps l limit).1.getD i none =
        some (vp + (vq - vp) * (((i : ℚ) - p) / ((q : ℚ) - p)))) ∧
    (limit < i - p → limit < q - i →
      (interpolate_gaps l limit).1.getD i none = none) ∧
    (interpolate_gaps l limit).2
      = countNone l - countNone (interpolate_gaps l limit).1 := by
  refine ⟨?_, ?_, ?_, ?_, rfl⟩
  · simp [interpolate_gaps]
  · intro j w hw
    rw [interpolate_getD l limit j (getD_some_lt_length l j w hw)]
    simp only [fillAt, hw]
  · intro hcond
    rw [interpolate_getD l limit i hil]
    simp only [fillAt, hmiss, hp, hq]
    rw [if_pos hcond]
  · intro hgt1 hgt2
    rw [interpolate_getD l limit i hil]
    simp only [fillAt, hmiss, hp, hq]
    rw [if_neg (by push_neg; exact ⟨hgt1, hgt2⟩)]

theorem interpolate_gaps_spec_witness :
    (interpolate_gaps [some 1, none, none, some 7] 1).1.getD 2 none = some 5 := by
  have h := (interpolate_gaps_spec [some 1, none, none, some 7] 1 2 0 3 1 7
    (by norm_num) rfl rfl rfl).2.2.1 (Or.inr (by norm_num))
  rw [h]
  norm_num

/-- Claim C6 (counterexample to the claim as stated): a gap of three
consecutive missing days exceeds the default budget max_gap_days = 2, yet
the interpolation pass fills all three days (pandas applies the limit from
each side of the gap), so days inside gaps longer than max_gap_days are
not left missing. -/
theorem interpolate_gaps_counterexample :
    interpolate_gaps [some 0, none, none, none, some 4] 2 =
      ([some 0, some 1, some 2, some 3, some 4], 3) ∧ 2 < 3 := by
  refine ⟨?_, by norm_num⟩
  norm_num [interpolate_gaps, fillAt, prevObs, nextObs, countNone,
    List.range_succ, List.range']

/- ===================== outlier mask lemmas =============================== -/

lemma filter_zip_snd (px : ℝ → Bool) :
    ∀ (xs ys : List ℝ), xs.length = ys.length →
      ((xs.zip ys).filter (fun ab => px ab.2)).map Prod.snd = ys.filter px := by
  intro xs
  induction xs with
  | nil =>
    intro ys h
    have hy : ys = [] := List.length_eq_zero.mp h.symm
    subst hy
    rfl
  | cons x xs ih =>
    intro ys h
    cases ys with
    | nil => cases h
    | cons y ys =>
      have hlen : xs.length = ys.length := by simpa using h
      by_cases hpy : px y = true
      · simp [List.zip_cons_cons, List.filter_cons, hpy, ih ys hlen]
      · simp [List.zip_cons_cons, List.filter_cons, hpy, ih ys hlen]

/-- Claim C10: the keep mask recomputed by the orchestrator,
|y − mean| ≤ threshold · std, is pointwise the complement of the outlier
mask |y − mean| > threshold · std used inside remove_outliers (both use
the mean and population standard deviation of the same original series),
so when at least one outlier is removed the filtered x list and the
cleaned y list have equal length and their zip is exactly the kept
(x, y) pairs. -/
theorem outlier_mask_complement (xs ys : List ℝ) (threshold : ℝ)
    (hlen : xs.length = ys.length) (h3 : ¬ ys.length < 3)
    (hstd : list_std ys ≠ 0)
    (hcnt : 0 < (ys.filter (fun v =>
      decide (threshold * list_std ys < |v - list_mean ys|))).length) :
    (∀ v : ℝ, (|v - list_mean ys| ≤ threshold * list_std ys) ↔
      ¬ (threshold * list_std ys < |v - list_mean ys|)) ∧
    (remove_outliers ys threshold).1 = ys.filter (fun v =>
      decide (|v - list_mean ys| ≤ threshold * list_std ys)) ∧
    (realign_x xs ys threshold).length = (remove_outliers ys threshold).1.length ∧
    (realign_x xs ys threshold).zip (remove_outliers ys threshold).1 =
      (xs.zip ys).filter (fun p =>
        decide (|p.2 - list_mean ys| ≤ threshold * list_std ys)) := by
  have hcompl : ∀ v : ℝ, (|v - list_mean ys| ≤ threshold * list_std ys) ↔
      ¬ (threshold * list_std ys < |v - list_mean ys|) := fun v => not_lt.symm
  have hro : (remove_outliers ys threshold).1 = ys.filter (fun v =>
      decide (|v - list_mean ys| ≤ threshold * list_std ys)) := by
    unfold remove_outliers
    rw [if_neg h3, if_neg hstd, if_pos hcnt]
    apply List.filter_congr
    intro v _
    rw [← decide_not]
    exact decide_eq_decide.mpr (hcompl v).symm
  have hsnd : ((xs.zip ys).filter (fun p =>
      decide (|p.2 - list_mean ys| ≤ threshold * list_std ys))).map Prod.snd
      = ys.filter (fun v =>
        decide (|v - list_mean ys| ≤ threshold * list_std ys)) :=
    filter_zip_snd
      (fun v => decide (|v - list_mean ys| ≤ threshold * list_std ys)) xs ys hlen
  refine ⟨hcompl, hro, ?_, ?_⟩
  · unfold realign_x
    rw [List.length_map, hro, ← hsnd, List.length_map]
  · unfold realign_x
    rw [hro, ← hsnd]
    exact (List.zip_of_prod rfl rfl).symm

/- ===================== remaining witnesses =============================== -/

theorem fit_model_selection_witness :
    (fit_model (fun _ _ => 0) (1 / 20) [0, 1, 2, 3] [1, 2, 4, 8]).model_type
        = "QUADRATIC" ∧
    (fit_model (fun _ _ => 0) (1 / 20) [0, 1, 2, 3] [1, 2, 4, 8]).coeffs
        = polyfit2 [0, 1, 2, 3] [1, 2, 4, 8] ∧
    (polyfit1 [0, 1, 2, 3] [1, 2, 4, 8]).1 * sum_x2 [0, 1, 2, 3]
        + (polyfit1 [0, 1, 2, 3] [1, 2, 4, 8]).2 * sum_x [0, 1, 2, 3]
        = sum_xy [0, 1, 2, 3] [1, 2, 4, 8] := by
  have h := fit_model_selection (fun _ _ => 0) (1 / 20) [0, 1, 2, 3] [1, 2, 4, 8]
  have hp : pValueOf (fun _ _ => 0) [0, 1, 2, 3] [1, 2, 4, 8] < 1 / 20 := by
    norm_num [pValueOf, seSq, mseOf, inv00, detXtX, polyfit2, quadPred,
      sum_x, sum_x2, sum_x3, sum_x4, sum_y, sum_xy, sum_x2y]
  exact ⟨h.1.mpr hp, h.2.2.2.1 hp,
    (h.2.2.2.2.2.2.1 (by norm_num [sum_x, sum_x2])).1⟩

theorem fit_model_degenerate_witness :
    (fit_model (fun _ _ => 0) (1 / 20) [0, 1, 2, 3] [0, 1, 4, 9]).p_value = 1 ∧
    (fit_model (fun _ _ => 0) (1 / 20) [0, 1, 2, 3] [0, 1, 4, 9]).model_type
      = "LINEAR" :=
  fit_model_degenerate (fun _ _ => 0) (1 / 20) [0, 1, 2, 3] [0, 1, 4, 9]
    (by norm_num)
    (Or.inr (by norm_num [seSq, mseOf, inv00, detXtX, polyfit2, quadPred,
      sum_x, sum_x2, sum_x3, sum_x4, sum_y, sum_xy, sum_x2y]))

theorem classify_confidence_spec_witness :
    classify_confidence (17 / 20) (7 / 10) 7 (17 / 20) 21 = ("HIGH", 1) ∧
    (classify_confidence (17 / 20) (7 / 10) 7 (17 / 20) 20).1 ≠ "HIGH" ∧
    classify_confidence (17 / 20) (7 / 10) 7 (3 / 4) 20 = ("MODERATE", 4 / 5) := by
  have h := classify_confidence_spec (17 / 20) (7 / 10) 7 (3 / 4) 20
  refine ⟨h.2.2.2.1, h.2.2.2.2, ?_⟩
  exact (h.2.1 (by norm_num)).mpr ⟨by norm_num, by norm_num⟩

theorem analyze_dedup_trend_spec_witness :
    analyze_dedup_trend (1 / 10) (-1 / 10) (9 / 10) (11 / 10)
      [1, 1, 1, 1, 1, 2, 2, 2, 2, 2] = ("IMPROVING", 9 / 10) ∧
    analyze_dedup_trend (1 / 10) (-1 / 10) (9 / 10) (11 / 10) [1, 2, 3]
      = ("UNKNOWN", 1) := by
  have h := analyze_dedup_trend_spec (1 / 10) (-1 / 10) (9 / 10) (11 / 10)
    [1, 1, 1, 1, 1, 2, 2, 2, 2, 2] (by norm_num) (by norm_num) (by norm_num)
  have h2 := analyze_dedup_trend_spec (1 / 10) (-1 / 10) (9 / 10) (11 / 10)
    [1, 2, 3] (by norm_num) (by norm_num) (by norm_num)
  refine ⟨((h.2 (by norm_num)).1 ?_).1, h2.1 (by norm_num)⟩
  norm_num [list_meanQ]

theorem outlier_mask_complement_witness :
    (realign_x [0, 1, 2, 3, 4] [0, 0, 0, 0, 100] 0).length
      = (remove_outliers [0, 0, 0, 0, 100] 0).1.length := by
  have hmean : list_mean [0, 0, 0, 0, 100] = 20 := by
    norm_num [list_mean]
  have hvar : list_var [0, 0, 0, 0, 100] = 1600 := by
    norm_num [list_var, hmean]
  have hstd : list_std [0, 0, 0, 0, 100] ≠ 0 := by
    rw [list_std, hvar, Real.sqrt_ne_zero']
    norm_num
  have hP : ∀ v ∈ [(0 : ℝ), 0, 0, 0, 100],
      (decide ((0 : ℝ) * list_std [0, 0, 0, 0, 100]
        < |v - list_mean [0, 0, 0, 0, 100]|)) = true := by
    intro v hv
    apply decide_eq_true
    rw [zero_mul, hmean]
    fin_cases hv <;> norm_num
  have hcnt : 0 < (List.filter (fun v =>
      decide ((0 : ℝ) * list_std [0, 0, 0, 0, 100]
        < |v - list_mean [0, 0, 0, 0, 100]|)) [0, 0, 0, 0, 100]).length := by
    rw [List.filter_eq_self.mpr hP]
    norm_num
  exact (outlier_mask_complement [0, 1, 2, 3, 4] [0, 0, 0, 0, 100] 0
    rfl (by norm_num) hstd hcnt).2.2.1
